import Mathlib

/-! findunexp: struct types that embed a pointer to an unexported type.

A shallow embedding of `findunexp.go`.

* The syntax tree (`go/ast`) is a tree of `Node`s.  The node kinds the matcher
  inspects (`*ast.Ident`, `*ast.StarExpr`, `*ast.StructType`, `*ast.Field`,
  `*ast.FieldList`) and `*ast.SelectorExpr` are modelled one by one; every other
  node kind is `Node.Other`, which carries its children in the order in which
  `ast.Walk` descends into them.
* `StructTypeVisitor.Visit` and the traversal `ast.Walk` thread the visitor
  (the slice `structTypes`) explicitly.
* `processPackage` returns the trace of its effects: the calls to
  `build.Import` and `parser.ParseFile` and the text written to standard output.
-/

namespace FindUnexp

/-! ## Syntax tree -/

mutual
/-- A node of the syntax tree (`ast.Node`). -/
inductive Node where
  /-- An identifier, `*ast.Ident`. -/
  | Ident (Name : String)
  /-- A pointer expression `*X`, `*ast.StarExpr`. -/
  | StarExpr (X : Node)
  /-- A qualified identifier `X.Sel`, `*ast.SelectorExpr`. -/
  | SelectorExpr (X : Node) (Sel : String)
  /-- A struct type, `*ast.StructType`. -/
  | StructTypeN (s : StructType)
  /-- Any other node kind (declaration, statement, expression, type), with
  its children in the order of `ast.Walk`. -/
  | Other (kind : String) (children : List Node)
/-- The node `ast.StructType`: the position `Struct` of the keyword and the
fields `Fields.List`. -/
inductive StructType where
  | mk (Struct : Nat) (Fields : List Field)
/-- The node `ast.Field`: `Names` is empty (Go: `nil`) for an embedded field. -/
inductive Field where
  | mk (Names : List String) (Typ : Node)
end

/-- The position of the `struct` keyword, `structType.Pos()`. -/
def StructType.Struct : StructType → Nat
  | .mk p _ => p

/-- The field list, `structType.Fields.List`. -/
def StructType.Fields : StructType → List Field
  | .mk _ fs => fs

/-- The names of a field, `field.Names`. -/
def Field.Names : Field → List String
  | .mk ns _ => ns

/-- The type of a field, `field.Type`. -/
def Field.Typ : Field → Node
  | .mk _ t => t

/-- The root of a parsed file, `ast.File`: the package name and the top-level
declarations. -/
structure File where
  Name : String
  Decls : List Node

/-- The dynamic value of the interface `ast.Node` that `ast.Walk` hands to
`Visit`. -/
inductive AstNode where
  | nil
  | node (n : Node)
  | fieldList (l : List Field)
  | field (f : Field)
  | file (f : File)

/-! ## The matcher -/

/-- The function `ast.IsExported`: the first character of the name is upper
case.  The Unicode table behind `unicode.IsUpper` is the parameter `isUpper`;
on the empty name Go decodes `utf8.RuneError`, which is not upper case. -/
def IsExported (isUpper : Char → Bool) (name : String) : Bool :=
  match name.data with
  | [] => false
  | ch :: _ => isUpper ch

/-- The visitor `StructTypeVisitor`. -/
structure StructTypeVisitor where
  structTypes : List StructType

/-- The loop `for _, field := range structType.Fields.List` of `Visit`, run on
the fields still to be scanned. -/
def visitFields (isUpper : Char → Bool) (structType : StructType) :
    List Field → StructTypeVisitor → StructTypeVisitor
  | [], v => v
  | field :: rest, v =>
    if !field.Names.isEmpty then
      visitFields isUpper structType rest v
    else
      match field.Typ with
      | .StarExpr x =>
        match x with
        | .Ident name =>
          if IsExported isUpper name then
            visitFields isUpper structType rest v
          else
            visitFields isUpper structType rest
              { structTypes := v.structTypes ++ [structType] }
        | _ => visitFields isUpper structType rest v
      | _ => visitFields isUpper structType rest v

/-- The method `StructTypeVisitor.Visit`.  The visitor it returns is always the
receiver itself, never `nil`; the result here is that visitor after the call. -/
def Visit (isUpper : Char → Bool) (v : StructTypeVisitor) : AstNode → StructTypeVisitor
  | .node (.StructTypeN structType) =>
    visitFields isUpper structType structType.Fields v
  | _ => v

/-- The traversal `ast.Walk` on an identifier (a leaf). -/
def walkIdent (isUpper : Char → Bool) (v : StructTypeVisitor) (name : String) :
    StructTypeVisitor :=
  Visit isUpper (Visit isUpper v (.node (.Ident name))) .nil

/-- The traversal `walkList` on the names of a field. -/
def walkNames (isUpper : Char → Bool) : StructTypeVisitor → List String → StructTypeVisitor
  | v, [] => v
  | v, name :: rest => walkNames isUpper (walkIdent isUpper v name) rest

mutual
/-- The traversal `ast.Walk`: `Visit` on the node, then the children in order
(`Visit` never returns `nil`, so the walk always descends), then `Visit(nil)`. -/
def Walk (isUpper : Char → Bool) (v : StructTypeVisitor) : Node → StructTypeVisitor
  | .Ident name => walkIdent isUpper v name
  | .StarExpr x =>
    Visit isUpper (Walk isUpper (Visit isUpper v (.node (.StarExpr x))) x) .nil
  | .SelectorExpr x sel =>
    Visit isUpper
      (walkIdent isUpper
        (Walk isUpper (Visit isUpper v (.node (.SelectorExpr x sel))) x) sel) .nil
  | .StructTypeN s =>
    Visit isUpper (walkStructFields isUpper (Visit isUpper v (.node (.StructTypeN s))) s) .nil
  | .Other kind children =>
    Visit isUpper (walkList isUpper (Visit isUpper v (.node (.Other kind children))) children) .nil
/-- The traversal `walkList` on a list of nodes. -/
def walkList (isUpper : Char → Bool) (v : StructTypeVisitor) : List Node → StructTypeVisitor
  | [] => v
  | n :: rest => walkList isUpper (Walk isUpper v n) rest
/-- The case `*ast.StructType` of `ast.Walk`: `Walk(v, n.Fields)`, the walk of
the node `*ast.FieldList`. -/
def walkStructFields (isUpper : Char → Bool) (v : StructTypeVisitor) :
    StructType → StructTypeVisitor
  | .mk _ fields =>
    Visit isUpper (walkFields isUpper (Visit isUpper v (.fieldList fields)) fields) .nil
/-- The traversal `walkList` on the fields of a field list. -/
def walkFields (isUpper : Char → Bool) (v : StructTypeVisitor) : List Field → StructTypeVisitor
  | [] => v
  | f :: rest => walkFields isUpper (walkField isUpper v f) rest
/-- The case `*ast.Field` of `ast.Walk`: the names, then the type. -/
def walkField (isUpper : Char → Bool) (v : StructTypeVisitor) : Field → StructTypeVisitor
  | .mk names typ =>
    Visit isUpper
      (Walk isUpper (walkNames isUpper (Visit isUpper v (.field (.mk names typ))) names) typ) .nil
end

/-- The case `*ast.File` of `ast.Walk`: the package name, then the declarations. -/
def walkFile (isUpper : Char → Bool) (v : StructTypeVisitor) (f : File) : StructTypeVisitor :=
  Visit isUpper
    (walkList isUpper (walkIdent isUpper (Visit isUpper v (.file f)) f.Name) f.Decls) .nil

/-- The function `searchStructs`: a fresh visitor walks the file. -/
def searchStructs (isUpper : Char → Bool) (astFile : File) : List StructType :=
  (walkFile isUpper { structTypes := [] } astFile).structTypes

/-! ## Processing a package -/

/-- An error of package resolution: `*build.NoGoError` or any other error. -/
inductive BuildError where
  | NoGoError (Dir : String)
  | Other (msg : String)

/-- The text of the error, `err.Error()`. -/
def BuildError.Error : BuildError → String
  | .NoGoError dir => "no buildable Go source files in " ++ dir
  | .Other msg => msg

/-- The type assertion `err.(*build.NoGoError)` succeeds. -/
def BuildError.isNoGoError : BuildError → Bool
  | .NoGoError _ => true
  | .Other _ => false

/-- The fields of `build.Package` that `processPackage` reads. -/
structure Package where
  Dir : String
  GoFiles : List String
  TestGoFiles : List String
  XTestGoFiles : List String
  CgoFiles : List String

/-- The outcome of `parser.ParseFile`: a tree and no error, or an error
together with the partial tree, if any. -/
inductive ParseResult where
  | ok (astFile : File)
  | fail (astFile : Option File) (err : String)

/-- An observable effect of `processPackage`. -/
inductive Event where
  /-- A call `build.Import(importPath, "", 0)`. -/
  | resolve (importPath : String)
  /-- A call `parser.ParseFile(fset, path, nil, 0)`. -/
  | parse (path : String)
  /-- Text written to `os.Stdout`. -/
  | stdout (text : String)
  deriving DecidableEq

/-- The collaborators of `processPackage` outside the repository. -/
structure World where
  /-- The table of `unicode.IsUpper`. -/
  isUpper : Char → Bool
  /-- The compiled pattern, `importRegexp.MatchString`. -/
  MatchString : String → Bool
  /-- The function `build.Import(importPath, "", 0)`. -/
  resolve : String → Except BuildError Package
  /-- The function `filepath.Join`. -/
  Join : String → String → String
  /-- The function `parser.ParseFile(fset, path, nil, 0)`. -/
  ParseFile : String → ParseResult
  /-- The text of `fset.PositionFor(pos, false)` under `%v`. -/
  PositionFor : Nat → String
  /-- The function `printer.Fprint` on a struct type node: the text it writes,
  or its error (it writes nothing when the node cannot be printed). -/
  Fprint : StructType → Except String String

/-- The loop `for _, structType := range visitor.structTypes` of
`processPackage`. -/
def reportMatches (w : World) : List StructType → List Event
  | [] => []
  | structType :: rest =>
    [Event.stdout ("\n" ++ w.PositionFor structType.Struct ++ ":\n")] ++
      (match w.Fprint structType with
        | .ok text => [Event.stdout text]
        | .error err => [Event.stdout (err ++ "\n")]) ++
      [Event.stdout "\n"] ++ reportMatches w rest

/-- The function `processPackage`, as the trace of its effects. -/
def processPackage (w : World) (importPath : String) (err : Option BuildError) : List Event :=
  if !w.MatchString importPath then
    []
  else
    match err with
    | some e => if !e.isNoGoError then [Event.stdout (e.Error ++ "\n")] else []
    | none =>
      [Event.resolve importPath] ++
        match w.resolve importPath with
        | .error e => if !e.isNoGoError then [Event.stdout (e.Error ++ "\n")] else []
        | .ok pkg =>
          match pkg.GoFiles ++ pkg.TestGoFiles ++ pkg.XTestGoFiles ++ pkg.CgoFiles with
          | [] => []
          | filename :: _ =>
            [Event.parse (w.Join pkg.Dir filename)] ++
              match w.ParseFile (w.Join pkg.Dir filename) with
              | .fail _ err => [Event.stdout (err ++ "\n"), Event.stdout "aborting package\n"]
              | .ok astFile =>
                reportMatches w (walkFile w.isUpper { structTypes := [] } astFile).structTypes

/-- The call `buildutil.ForEachPackage(&build.Default, processPackage)` of
`main`: the callback runs once for every package found, one after the other. -/
def forEachPackage (w : World) (found : List (String × Option BuildError)) : List Event :=
  found.flatMap (fun p => processPackage w p.1 p.2)

/-! ## Specification-side notions -/

/-- A field qualifies when it has no names, its type is a pointer expression,
the pointee is a simple identifier, and that identifier is not exported. -/
def qualifying (isUpper : Char → Bool) (f : Field) : Bool :=
  f.Names.isEmpty &&
    match f.Typ with
    | .StarExpr (.Ident name) => !IsExported isUpper name
    | _ => false

/-- The number of qualifying fields of a struct type node. -/
def qualCount (isUpper : Char → Bool) (s : StructType) : Nat :=
  s.Fields.countP (qualifying isUpper)

mutual
/-- The struct type nodes below a node, in the order of the pre-order
depth-first walk: a node before the nodes nested in it, siblings from left to
right. -/
def structNodes : Node → List StructType
  | .Ident _ => []
  | .StarExpr x => structNodes x
  | .SelectorExpr x _ => structNodes x
  | .StructTypeN s => structNodesStruct s
  | .Other _ children => structNodesList children
/-- The struct type nodes below a list of siblings. -/
def structNodesList : List Node → List StructType
  | [] => []
  | n :: rest => structNodes n ++ structNodesList rest
/-- A struct type node followed by the struct type nodes nested in its fields. -/
def structNodesStruct : StructType → List StructType
  | .mk pos fields => .mk pos fields :: structNodesFields fields
/-- The struct type nodes nested in the types of a list of fields. -/
def structNodesFields : List Field → List StructType
  | [] => []
  | f :: rest => structNodesField f ++ structNodesFields rest
/-- The struct type nodes nested in the type of a field. -/
def structNodesField : Field → List StructType
  | .mk _ typ => structNodes typ
end

/-- The struct type nodes of a file, in the order of the walk. -/
def File.structNodes (f : File) : List StructType :=
  structNodesList f.Decls

/-- The struct type nodes nested in the field types of a struct type node. -/
def StructType.nested (s : StructType) : List StructType :=
  structNodesFields s.Fields

/-- What the walk appends for a list of visited struct type nodes: each node
once per qualifying field. -/
def emitted (isUpper : Char → Bool) (l : List StructType) : List StructType :=
  l.flatMap (fun s => List.replicate (qualCount isUpper s) s)

/-! ## Example trees -/

/-- The declaration `type name struct {...}`: a `*ast.GenDecl` holding one
`*ast.TypeSpec`. -/
def typeDecl (name : String) (s : StructType) : Node :=
  .Other "GenDecl" [.Other "TypeSpec" [.Ident name, .StructTypeN s]]

/-- The struct type of `type A struct { *b }`. -/
def structA : StructType := .mk 15 [.mk [] (.StarExpr (.Ident "b"))]

/-- The struct type of `type B struct { *C }`. -/
def structB : StructType := .mk 36 [.mk [] (.StarExpr (.Ident "C"))]

/-- The file `package p; type A struct { *b }; type B struct { *C }`. -/
def fileAB : File := { Name := "p", Decls := [typeDecl "A" structA, typeDecl "B" structB] }

/-- The file `package p; type B struct { *C }`. -/
def fileB : File := { Name := "p", Decls := [typeDecl "B" structB] }

/-- The struct type of `type T struct { *a; *b }`. -/
def structTwo : StructType :=
  .mk 15 [.mk [] (.StarExpr (.Ident "a")), .mk [] (.StarExpr (.Ident "b"))]

/-- The file `package p; type T struct { *a; *b }`. -/
def fileTwo : File := { Name := "p", Decls := [typeDecl "T" structTwo] }

/-- The struct type `struct { *deep }`, the type of the field `f` of `structOuter`. -/
def structInner : StructType := .mk 40 [.mk [] (.StarExpr (.Ident "deep"))]

/-- The struct type of `type Outer struct { *inner; f struct { *deep } }`. -/
def structOuter : StructType :=
  .mk 19 [.mk [] (.StarExpr (.Ident "inner")), .mk ["f"] (.StructTypeN structInner)]

/-- The struct type of `var x struct { *q }` in the body of `func g()`. -/
def structBody : StructType := .mk 80 [.mk [] (.StarExpr (.Ident "q"))]

/-- The file `package p; type Outer struct { *inner; f struct { *deep } };
func g() { var x struct { *q } }`. -/
def fileDeep : File :=
  { Name := "p",
    Decls := [typeDecl "Outer" structOuter,
      .Other "FuncDecl" [.Ident "g", .Other "FuncType" [.Other "FieldList" []],
        .Other "BlockStmt" [.Other "DeclStmt" [.Other "GenDecl"
          [.Other "ValueSpec" [.Ident "x", .StructTypeN structBody]]]]]] }

/-- The struct type of
`type S struct { x *t; t; *pkg.t; *pkg.T; **t; *[]t; *T }`: no field is eligible. -/
def structIneligible : StructType :=
  .mk 15 [.mk ["x"] (.StarExpr (.Ident "t")),
    .mk [] (.Ident "t"),
    .mk [] (.StarExpr (.SelectorExpr (.Ident "pkg") "t")),
    .mk [] (.StarExpr (.SelectorExpr (.Ident "pkg") "T")),
    .mk [] (.StarExpr (.StarExpr (.Ident "t"))),
    .mk [] (.StarExpr (.Other "ArrayType" [.Ident "t"])),
    .mk [] (.StarExpr (.Ident "T"))]

/-- The file `package p; type S struct { x *t; t; *pkg.t; *pkg.T; **t; *[]t; *T };
type A struct { *b }`. -/
def fileIneligible : File :=
  { Name := "p", Decls := [typeDecl "S" structIneligible, typeDecl "A" structA] }

/-! ## Example world -/

/-- A package with ordinary, test and cgo files. -/
def pkgA : Package :=
  { Dir := "/src/a", GoFiles := ["x.go", "y.go"], TestGoFiles := ["x_test.go"],
    XTestGoFiles := [], CgoFiles := ["c.go"] }

/-- A package with test files only. -/
def pkgTest : Package :=
  { Dir := "/src/a/t", GoFiles := [], TestGoFiles := ["t_test.go"],
    XTestGoFiles := ["e_test.go"], CgoFiles := [] }

/-- A package with no file in scope. -/
def pkgEmpty : Package :=
  { Dir := "/src/a/e", GoFiles := [], TestGoFiles := [], XTestGoFiles := [], CgoFiles := [] }

/-- An example of the collaborators: the pattern `^a`, five import paths that
resolve or fail, two files that parse and one that does not, and a printer that
fails on the struct type at position 40. -/
def worldEx : World :=
  { isUpper := Char.isUpper
    MatchString := fun importPath => importPath.data.head? == some 'a'
    resolve := fun importPath =>
      if importPath = "a" then .ok pkgA
      else if importPath = "a/t" then .ok pkgTest
      else if importPath = "a/e" then .ok pkgEmpty
      else if importPath = "a/doc" then .error (.NoGoError "/src/a/doc")
      else .error (.Other ("cannot find package " ++ importPath))
    Join := fun dir name => dir ++ "/" ++ name
    ParseFile := fun path =>
      if path = "/src/a/x.go" then .ok fileDeep
      else .fail (some fileAB) (path ++ ":3:1: expected declaration")
    PositionFor := fun pos => "x.go:" ++ toString pos
    Fprint := fun s => if s.Struct = 40 then .error "unsupported node" else .ok "struct" }

/-- The event is a call of the file parse. -/
def Event.isParse : Event → Bool
  | .parse _ => true
  | _ => false

/-! ## The walk appends `emitted` of the pre-order list -/

theorem visitFields_structTypes (isUpper : Char → Bool) (s : StructType) (fs : List Field) :
    ∀ v : StructTypeVisitor, (visitFields isUpper s fs v).structTypes
      = v.structTypes ++ List.replicate (fs.countP (qualifying isUpper)) s := by
  induction fs with
  | nil => intro v; simp [visitFields]
  | cons f rest ih =>
    intro v
    obtain ⟨names, typ⟩ := f
    cases hn : names.isEmpty
    · simp [visitFields, Field.Names, hn, ih, qualifying]
    · cases typ with
      | StarExpr x =>
        cases x with
        | Ident name =>
          cases he : IsExported isUpper name
          · simp [visitFields, Field.Names, Field.Typ, hn, he, ih, qualifying,
              List.replicate_succ, List.countP_cons, Nat.add_comm]
          · simp [visitFields, Field.Names, Field.Typ, hn, he, ih, qualifying]
        | _ => simp [visitFields, Field.Names, Field.Typ, hn, ih, qualifying]
      | _ => simp [visitFields, Field.Names, Field.Typ, hn, ih, qualifying]

theorem walkIdent_eq (isUpper : Char → Bool) (v : StructTypeVisitor) (name : String) :
    walkIdent isUpper v name = v := rfl

theorem walkNames_eq (isUpper : Char → Bool) (names : List String) :
    ∀ v : StructTypeVisitor, walkNames isUpper v names = v := by
  induction names with
  | nil => intro v; rfl
  | cons n rest ih => intro v; simp [walkNames, walkIdent_eq, ih]

mutual
theorem Walk_structTypes (isUpper : Char → Bool) :
    ∀ (n : Node) (v : StructTypeVisitor), (Walk isUpper v n).structTypes
      = v.structTypes ++ emitted isUpper (structNodes n)
  | .Ident name, v => by simp [Walk, walkIdent_eq, structNodes, emitted]
  | .StarExpr x, v => by
    simp [Walk, Visit, structNodes, Walk_structTypes isUpper x]
  | .SelectorExpr x sel, v => by
    simp [Walk, Visit, walkIdent_eq, structNodes, Walk_structTypes isUpper x]
  | .StructTypeN (.mk pos fields), v => by
    simp [Walk, Visit, structNodes, structNodesStruct, StructType.Fields, emitted, qualCount,
      walkStructFields_structTypes isUpper (.mk pos fields), visitFields_structTypes,
      List.flatMap_cons]
  | .Other kind children, v => by
    simp [Walk, Visit, structNodes, walkList_structTypes isUpper children]
theorem walkList_structTypes (isUpper : Char → Bool) :
    ∀ (l : List Node) (v : StructTypeVisitor), (walkList isUpper v l).structTypes
      = v.structTypes ++ emitted isUpper (structNodesList l)
  | [], v => by simp [walkList, structNodesList, emitted]
  | n :: rest, v => by
    simp [walkList, structNodesList, walkList_structTypes isUpper rest,
      Walk_structTypes isUpper n, emitted, List.flatMap_append]
theorem walkStructFields_structTypes (isUpper : Char → Bool) :
    ∀ (s : StructType) (v : StructTypeVisitor), (walkStructFields isUpper v s).structTypes
      = v.structTypes ++ emitted isUpper (structNodesFields s.Fields)
  | .mk pos fields, v => by
    simp [walkStructFields, Visit, StructType.Fields, walkFields_structTypes isUpper fields]
theorem walkFields_structTypes (isUpper : Char → Bool) :
    ∀ (l : List Field) (v : StructTypeVisitor), (walkFields isUpper v l).structTypes
      = v.structTypes ++ emitted isUpper (structNodesFields l)
  | [], v => by simp [walkFields, structNodesFields, emitted]
  | f :: rest, v => by
    simp [walkFields, structNodesFields, walkFields_structTypes isUpper rest,
      walkField_structTypes isUpper f, emitted, List.flatMap_append]
theorem walkField_structTypes (isUpper : Char → Bool) :
    ∀ (f : Field) (v : StructTypeVisitor), (walkField isUpper v f).structTypes
      = v.structTypes ++ emitted isUpper (structNodesField f)
  | .mk names typ, v => by
    simp [walkField, Visit, walkNames_eq, structNodesField, Walk_structTypes isUpper typ]
end

/-- The result of `searchStructs` is `emitted` of the pre-order list of the
struct type nodes of the file. -/
theorem searchStructs_eq (isUpper : Char → Bool) (f : File) :
    searchStructs isUpper f = emitted isUpper f.structNodes := by
  simp [searchStructs, walkFile, Visit, walkIdent_eq, walkList_structTypes, File.structNodes]

/-! ## Properties of the matcher -/

theorem qualifying_iff (isUpper : Char → Bool) (fld : Field) :
    qualifying isUpper fld = true ↔
      fld.Names = [] ∧
        ∃ name, fld.Typ = .StarExpr (.Ident name) ∧ IsExported isUpper name = false := by
  obtain ⟨names, typ⟩ := fld
  cases typ with
  | StarExpr x =>
    cases x <;> simp [qualifying, Field.Names, Field.Typ, List.isEmpty_iff]
  | _ => simp [qualifying, Field.Names, Field.Typ]

theorem IsExported_eq_false_iff (isUpper : Char → Bool) (name : String) :
    IsExported isUpper name = false ↔ ∀ ch ∈ name.data.head?, isUpper ch = false := by
  unfold IsExported
  cases name.data <;> simp

theorem mem_emitted (isUpper : Char → Bool) (l : List StructType) (s : StructType) :
    s ∈ emitted isUpper l ↔ s ∈ l ∧ qualCount isUpper s ≠ 0 := by
  simp only [emitted, List.mem_flatMap, List.mem_replicate]
  constructor
  · rintro ⟨a, ha, hq, rfl⟩
    exact ⟨ha, hq⟩
  · rintro ⟨hs, hq⟩
    exact ⟨s, hs, hq, rfl⟩

theorem qualCount_ne_zero_iff (isUpper : Char → Bool) (s : StructType) :
    qualCount isUpper s ≠ 0 ↔ ∃ fld ∈ s.Fields, qualifying isUpper fld = true := by
  unfold qualCount
  rw [Ne, List.countP_eq_zero]
  push_neg
  rfl

theorem emitted_cons (isUpper : Char → Bool) (s : StructType) (l : List StructType) :
    emitted isUpper (s :: l) = List.replicate (qualCount isUpper s) s ++ emitted isUpper l := by
  simp [emitted, List.flatMap_cons]

theorem emitted_append (isUpper : Char → Bool) (l₁ l₂ : List StructType) :
    emitted isUpper (l₁ ++ l₂) = emitted isUpper l₁ ++ emitted isUpper l₂ := by
  simp [emitted, List.flatMap_append]

theorem countP_emitted_eq_zero (isUpper : Char → Bool) (p : StructType → Bool)
    (l : List StructType) (h : ∀ x ∈ l, p x = false) :
    (emitted isUpper l).countP p = 0 := by
  rw [List.countP_eq_zero]
  intro a ha
  have := ((mem_emitted isUpper l a).1 ha).1
  simp [h a this]

theorem countP_emitted_pos (isUpper : Char → Bool) (s : StructType) :
    ∀ l : List StructType, s ∈ l → (l.map StructType.Struct).Nodup →
      (emitted isUpper l).countP (fun r => r.Struct == s.Struct) = qualCount isUpper s := by
  intro l
  induction l with
  | nil => intro hs; simp at hs
  | cons a rest ih =>
    intro hs hnd
    rw [List.map_cons, List.nodup_cons] at hnd
    rw [emitted_cons, List.countP_append, List.countP_replicate]
    rcases List.mem_cons.1 hs with rfl | hrest
    · have hz : (emitted isUpper rest).countP (fun r => r.Struct == s.Struct) = 0 := by
        apply countP_emitted_eq_zero
        intro x hx
        have hne : x.Struct ≠ s.Struct := by
          intro he
          exact hnd.1 (he ▸ List.mem_map_of_mem StructType.Struct hx)
        simpa using hne
      simp [hz]
    · have hne : a.Struct ≠ s.Struct := by
        intro he
        exact hnd.1 (he ▸ List.mem_map_of_mem StructType.Struct hrest)
      simp [hne, ih hrest hnd.2]

/-- C1: a struct type node occurs in the result of `searchStructs` exactly when
it is a struct type node of the file (at any depth) with a field that has no
names, whose type is a pointer expression, whose pointee is a simple identifier
and whose identifier is not exported, that is, its first character is not upper
case.  A file with no such struct type gives the empty result; for
`type A struct { *b }; type B struct { *C }` the result is A's node and B's
node is absent; struct types in a function body and in a field type are found
too. -/
theorem searchStructs_mem_iff (isUpper : Char → Bool) (f : File) (s : StructType) :
    (s ∈ searchStructs isUpper f ↔
      s ∈ f.structNodes ∧ ∃ fld ∈ s.Fields, fld.Names = [] ∧
        ∃ name, fld.Typ = .StarExpr (.Ident name) ∧ IsExported isUpper name = false)
    ∧ (∀ name, IsExported isUpper name = false ↔
        ∀ ch ∈ name.data.head?, isUpper ch = false)
    ∧ ((∀ t ∈ f.structNodes, ∀ fld ∈ t.Fields, ¬ (fld.Names = [] ∧
          ∃ name, fld.Typ = .StarExpr (.Ident name) ∧ IsExported isUpper name = false)) →
        searchStructs isUpper f = [])
    ∧ (searchStructs Char.isUpper fileAB = [structA] ∧ structB ∈ fileAB.structNodes ∧
        structB ∉ searchStructs Char.isUpper fileAB)
    ∧ (fileDeep.structNodes = [structOuter, structInner, structBody] ∧
        searchStructs Char.isUpper fileDeep = [structOuter, structInner, structBody]) := by
  have hmem : ∀ t, t ∈ searchStructs isUpper f ↔
      t ∈ f.structNodes ∧ ∃ fld ∈ t.Fields, fld.Names = [] ∧
        ∃ name, fld.Typ = .StarExpr (.Ident name) ∧ IsExported isUpper name = false := by
    intro t
    rw [searchStructs_eq, mem_emitted, qualCount_ne_zero_iff]
    simp only [qualifying_iff]
  refine ⟨hmem s, IsExported_eq_false_iff isUpper, ?_, ⟨rfl, ?_, ?_⟩, rfl, rfl⟩
  · intro h
    apply List.eq_nil_iff_forall_not_mem.2
    intro t ht
    obtain ⟨ht1, fld, hfld, hq⟩ := (hmem t).1 ht
    exact h t ht1 fld hfld hq
  · have h : fileAB.structNodes = [structA, structB] := rfl
    simp [h]
  · have h : searchStructs Char.isUpper fileAB = [structA] := rfl
    rw [h]
    simp [structA, structB]

/-- Witness of C1: the file `type B struct { *C }` has no qualifying struct type
and the result is empty. -/
theorem searchStructs_mem_iff_witness : searchStructs Char.isUpper fileB = [] :=
  (searchStructs_mem_iff Char.isUpper fileB structB).2.2.1 (by
    intro t ht fld hfld
    have h : fileB.structNodes = [structB] := rfl
    rw [h, List.mem_singleton] at ht
    subst ht
    have hf : structB.Fields = [.mk [] (.StarExpr (.Ident "C"))] := rfl
    rw [hf, List.mem_singleton] at hfld
    subst hfld
    rintro ⟨-, name, hname, hexp⟩
    simp only [Field.Typ, Node.StarExpr.injEq, Node.Ident.injEq] at hname
    subst hname
    exact absurd hexp (by decide))

/-- C2 at `type T struct { *a; *b }`: the walk appends the node of `T` twice,
once for each qualifying field. -/
theorem searchStructs_fileTwo :
    fileTwo.structNodes = [structTwo] ∧
      searchStructs Char.isUpper fileTwo = [structTwo, structTwo] :=
  ⟨rfl, rfl⟩

/-- C3: the result lists the struct type nodes in the order of the pre-order
walk.  When `s1` is visited before `s2`, all the entries of `s1` come before all
the entries of `s2`, the other entries staying in the order of the walk; and the
entries of an enclosing struct type come before those of the struct types nested
in its field types. -/
theorem searchStructs_order (isUpper : Char → Bool) (f : File)
    (pre mid post : List StructType) (s1 s2 : StructType)
    (h : f.structNodes = pre ++ s1 :: (mid ++ s2 :: post)) :
    searchStructs isUpper f =
        emitted isUpper pre ++ (List.replicate (qualCount isUpper s1) s1 ++
          (emitted isUpper mid ++ (List.replicate (qualCount isUpper s2) s2 ++
            emitted isUpper post)))
    ∧ (∀ (l : List StructType) (t : StructType), t ∈ emitted isUpper l → t ∈ l)
    ∧ (∀ (s : StructType) (v : StructTypeVisitor),
        structNodes (.StructTypeN s) = s :: s.nested ∧
        (Walk isUpper v (.StructTypeN s)).structTypes =
          v.structTypes ++ (List.replicate (qualCount isUpper s) s ++
            emitted isUpper s.nested)) := by
  refine ⟨?_, fun l t ht => ((mem_emitted isUpper l t).1 ht).1, ?_⟩
  · rw [searchStructs_eq, h, emitted_append, emitted_cons, emitted_append, emitted_cons]
  · intro s v
    obtain ⟨pos, fields⟩ := s
    refine ⟨rfl, ?_⟩
    rw [Walk_structTypes]
    simp [structNodes, structNodesStruct, emitted_cons, StructType.nested, StructType.Fields]

/-- Witness of C3: in `fileDeep` the struct type `Outer` is visited before the
struct type nested in its field `f`, and both before the one in the body of
`g`. -/
theorem searchStructs_order_witness :
    fileDeep.structNodes = [] ++ structOuter :: ([] ++ structInner :: [structBody]) ∧
    searchStructs Char.isUpper fileDeep =
      emitted Char.isUpper [] ++ (List.replicate (qualCount Char.isUpper structOuter) structOuter ++
        (emitted Char.isUpper [] ++
          (List.replicate (qualCount Char.isUpper structInner) structInner ++
            emitted Char.isUpper [structBody]))) :=
  ⟨rfl, (searchStructs_order Char.isUpper fileDeep [] [] [structBody] structOuter structInner
    rfl).1⟩

/-- C4: a struct type node each of whose fields is named, or of non-pointer
type, or a pointer whose pointee is not a simple identifier, or a pointer to an
exported identifier, does not occur in the result, whatever the names inside
those shapes are. -/
theorem searchStructs_not_mem_of_ineligible (isUpper : Char → Bool) (f : File)
    (s : StructType)
    (h : ∀ fld ∈ s.Fields,
      fld.Names ≠ [] ∨ (∀ x, fld.Typ ≠ .StarExpr x) ∨
        (∃ x, fld.Typ = .StarExpr x ∧ ∀ name, x ≠ .Ident name) ∨
        (∃ name, fld.Typ = .StarExpr (.Ident name) ∧ IsExported isUpper name = true)) :
    s ∉ searchStructs isUpper f := by
  intro hs
  rw [searchStructs_eq, mem_emitted, qualCount_ne_zero_iff] at hs
  obtain ⟨-, fld, hfld, hq⟩ := hs
  obtain ⟨hnames, name, htyp, hexp⟩ := (qualifying_iff isUpper fld).1 hq
  rcases h fld hfld with h1 | h2 | ⟨x, hx, hne⟩ | ⟨name2, hx, hexp2⟩
  · exact h1 hnames
  · exact h2 _ htyp
  · rw [htyp] at hx
    simp only [Node.StarExpr.injEq] at hx
    exact hne name hx.symm
  · rw [htyp] at hx
    simp only [Node.StarExpr.injEq, Node.Ident.injEq] at hx
    subst hx
    rw [hexp] at hexp2
    exact Bool.noConfusion hexp2

/-- Witness of C4: the struct type of
`type S struct { x *t; t; *pkg.t; *pkg.T; **t; *[]t; *T }` is a node of
`fileIneligible` and does not occur in the result. -/
theorem searchStructs_not_mem_of_ineligible_witness :
    structIneligible ∈ fileIneligible.structNodes ∧
      structIneligible ∉ searchStructs Char.isUpper fileIneligible :=
  ⟨by
    have h : fileIneligible.structNodes = [structIneligible, structA] := rfl
    simp [h],
   searchStructs_not_mem_of_ineligible Char.isUpper fileIneligible structIneligible (by
    intro fld hfld
    simp only [structIneligible, StructType.Fields, List.mem_cons, List.mem_singleton,
      List.mem_nil_iff, or_false] at hfld
    rcases hfld with rfl | rfl | rfl | rfl | rfl | rfl | rfl
    · exact Or.inl (by simp [Field.Names])
    · exact Or.inr (Or.inl (by simp [Field.Typ]))
    · exact Or.inr (Or.inr (Or.inl ⟨_, rfl, by simp⟩))
    · exact Or.inr (Or.inr (Or.inl ⟨_, rfl, by simp⟩))
    · exact Or.inr (Or.inr (Or.inl ⟨_, rfl, by simp⟩))
    · exact Or.inr (Or.inr (Or.inl ⟨_, rfl, by simp⟩))
    · exact Or.inr (Or.inr (Or.inr ⟨"T", rfl, by decide⟩)))⟩

/-- C10: the result of `searchStructs` holds each struct type node of the file
once per qualifying field (anonymous, of pointer type, with a simple identifier
pointee that is not exported), so its length is the total number of qualifying
fields; with the nodes told apart by their positions, the number of entries of
a node is the number of its qualifying fields. -/
theorem searchStructs_multiplicity (isUpper : Char → Bool) (f : File) :
    searchStructs isUpper f =
        f.structNodes.flatMap (fun s => List.replicate (s.Fields.countP (fun fld =>
          fld.Names.isEmpty && match fld.Typ with
            | .StarExpr (.Ident name) => !IsExported isUpper name
            | _ => false)) s)
    ∧ (searchStructs isUpper f).length =
        (f.structNodes.map (fun s => s.Fields.countP (qualifying isUpper))).sum
    ∧ (∀ fld, qualifying isUpper fld = true ↔ fld.Names = [] ∧
        ∃ name, fld.Typ = .StarExpr (.Ident name) ∧ IsExported isUpper name = false)
    ∧ (∀ s ∈ f.structNodes, (f.structNodes.map StructType.Struct).Nodup →
        (searchStructs isUpper f).countP (fun r => r.Struct == s.Struct) =
          s.Fields.countP (qualifying isUpper)) := by
  refine ⟨searchStructs_eq isUpper f, ?_, qualifying_iff isUpper, ?_⟩
  · rw [searchStructs_eq, emitted, List.length_flatMap]
    congr 1
    apply List.map_congr_left
    intro s _
    simp [qualCount]
  · intro s hs hnd
    rw [searchStructs_eq]
    exact countP_emitted_pos isUpper s f.structNodes hs hnd

/-- Witness of C10: in `type T struct { *a; *b }` the node of `T` has two
qualifying fields and two entries in the result. -/
theorem searchStructs_multiplicity_witness :
    (searchStructs Char.isUpper fileTwo).countP (fun r => r.Struct == structTwo.Struct) = 2 :=
  (searchStructs_multiplicity Char.isUpper fileTwo).2.2.2 structTwo
    (by have h : fileTwo.structNodes = [structTwo] := rfl
        simp [h])
    (by have h : fileTwo.structNodes.map StructType.Struct = [15] := rfl
        simp [h])

/-! ## Properties of `processPackage` -/

theorem reportMatches_eq (w : World) (l : List StructType) :
    reportMatches w l = l.flatMap (fun m =>
      [Event.stdout ("\n" ++ w.PositionFor m.Struct ++ ":\n"),
        Event.stdout (match w.Fprint m with
          | .ok text => text
          | .error err => err ++ "\n"),
        Event.stdout "\n"]) := by
  induction l with
  | nil => rfl
  | cons m rest ih =>
    rw [reportMatches, ih, List.flatMap_cons]
    cases w.Fprint m <;> rfl

theorem countP_isParse_reportMatches (w : World) (l : List StructType) :
    (reportMatches w l).countP Event.isParse = 0 := by
  rw [reportMatches_eq, List.countP_eq_zero]
  intro e he
  rw [List.mem_flatMap] at he
  obtain ⟨m, -, hm⟩ := he
  simp only [List.mem_cons, List.mem_singleton, List.mem_nil_iff, or_false] at hm
  rcases hm with rfl | rfl | rfl <;> simp [Event.isParse]

theorem forEachPackage_cons (w : World) (importPath : String) (err : Option BuildError)
    (more : List (String × Option BuildError)) :
    forEachPackage w ((importPath, err) :: more) =
      processPackage w importPath err ++ forEachPackage w more := by
  simp [forEachPackage, List.flatMap_cons]

/-- C5: for an import path that the pattern does not match, whatever the
resolution outcome handed in, `processPackage` has no effect at all: no output,
no call of `build.Import`, no file parsed.  When the pattern matches none of
the paths found, the whole run has no effect. -/
theorem processPackage_unmatched (w : World) (importPath : String) (err : Option BuildError)
    (h : w.MatchString importPath = false) :
    processPackage w importPath err = []
    ∧ (∀ found : List (String × Option BuildError),
        (∀ p ∈ found, w.MatchString p.1 = false) → forEachPackage w found = []) := by
  have hone : ∀ (q : String) (e : Option BuildError), w.MatchString q = false →
      processPackage w q e = [] := by
    intro q e hq
    simp [processPackage, hq]
  refine ⟨hone importPath err h, ?_⟩
  intro found hall
  induction found with
  | nil => rfl
  | cons p rest ih =>
    obtain ⟨q, e⟩ := p
    rw [forEachPackage_cons, hone q e (hall (q, e) (List.mem_cons_self _ _)),
      ih (fun p hp => hall p (List.mem_cons_of_mem _ hp))]
    rfl

/-- Witness of C5: the pattern `^a` does not match `z`, and a run over three
such paths, with a nil error, a no-Go error and another error, has no effect. -/
theorem processPackage_unmatched_witness :
    processPackage worldEx "z" (some (.Other "unreadable")) = []
    ∧ forEachPackage worldEx
        [("z", none), ("b/c", some (.NoGoError "/src/b/c")), ("d", some (.Other "x"))] = [] :=
  ⟨(processPackage_unmatched worldEx "z" (some (.Other "unreadable")) (by decide)).1,
   (processPackage_unmatched worldEx "z" none (by decide)).2 _ (by decide)⟩

/-- C6: for an import path that the pattern matches: a no-Go error, handed in
or returned by `build.Import`, gives no output and no parse; any other error
gives exactly the line of the error text, no parse and no match block; a file
is parsed only when the error handed in is nil and `build.Import` succeeds. -/
theorem processPackage_resolution_error (w : World) (importPath : String)
    (h : w.MatchString importPath = true) :
    (∀ e : BuildError, e.isNoGoError = true → processPackage w importPath (some e) = [])
    ∧ (∀ e : BuildError, e.isNoGoError = false →
        processPackage w importPath (some e) = [Event.stdout (e.Error ++ "\n")])
    ∧ (∀ e : BuildError, w.resolve importPath = .error e → e.isNoGoError = true →
        processPackage w importPath none = [Event.resolve importPath])
    ∧ (∀ e : BuildError, w.resolve importPath = .error e → e.isNoGoError = false →
        processPackage w importPath none =
          [Event.resolve importPath, Event.stdout (e.Error ++ "\n")])
    ∧ (∀ (err : Option BuildError) (path : String),
        Event.parse path ∈ processPackage w importPath err →
          err = none ∧ ∃ pkg, w.resolve importPath = .ok pkg) := by
  refine ⟨?_, ?_, ?_, ?_, ?_⟩
  · intro e he
    simp [processPackage, h, he]
  · intro e he
    simp [processPackage, h, he]
  · intro e hr he
    simp [processPackage, h, hr, he]
  · intro e hr he
    simp [processPackage, h, hr, he]
  · intro err path hmem
    cases err with
    | some e =>
      cases he : e.isNoGoError <;> simp [processPackage, h, he] at hmem
    | none =>
      refine ⟨rfl, ?_⟩
      cases hr : w.resolve importPath with
      | ok pkg => exact ⟨pkg, rfl⟩
      | error e =>
        cases he : e.isNoGoError <;> simp [processPackage, h, hr, he] at hmem

/-- Witness of C6: under the pattern `^a`, the path `a/doc` resolves to a no-Go
error and `a/zz` to another error. -/
theorem processPackage_resolution_error_witness :
    processPackage worldEx "a/doc" none = [Event.resolve "a/doc"]
    ∧ processPackage worldEx "a/zz" (some (.Other "permission denied")) =
        [Event.stdout "permission denied\n"] :=
  ⟨(processPackage_resolution_error worldEx "a/doc" (by decide)).2.2.1
      (.NoGoError "/src/a/doc") rfl rfl,
   (processPackage_resolution_error worldEx "a/zz" (by decide)).2.1
      (.Other "permission denied") (by decide)⟩

/-- C7: for a resolved package, the file parsed is the first element of
`GoFiles ++ TestGoFiles ++ XTestGoFiles ++ CgoFiles` joined with the package
directory, and it is the only file parsed; when that list is empty nothing is
parsed and nothing is written; in every case at most one file is parsed. -/
theorem processPackage_file_selection (w : World) (importPath : String) (pkg : Package)
    (h : w.MatchString importPath = true) (hr : w.resolve importPath = .ok pkg) :
    (pkg.GoFiles ++ pkg.TestGoFiles ++ pkg.XTestGoFiles ++ pkg.CgoFiles = [] →
        processPackage w importPath none = [Event.resolve importPath])
    ∧ (∀ filename,
        (pkg.GoFiles ++ pkg.TestGoFiles ++ pkg.XTestGoFiles ++ pkg.CgoFiles).head?
            = some filename →
          (processPackage w importPath none).filter Event.isParse =
              [Event.parse (w.Join pkg.Dir filename)]
          ∧ (processPackage w importPath none).take 2 =
              [Event.resolve importPath, Event.parse (w.Join pkg.Dir filename)])
    ∧ ((pkg.GoFiles ++ pkg.TestGoFiles ++ pkg.XTestGoFiles ++ pkg.CgoFiles).head? =
        (pkg.GoFiles.head?.or (pkg.TestGoFiles.head?.or
          (pkg.XTestGoFiles.head?.or pkg.CgoFiles.head?))))
    ∧ (∀ (w2 : World) (path : String) (err : Option BuildError),
        (processPackage w2 path err).countP Event.isParse ≤ 1) := by
  have hcount : ∀ (w2 : World) (path : String) (err : Option BuildError),
      (processPackage w2 path err).countP Event.isParse ≤ 1 := by
    intro w2 path err
    unfold processPackage
    split
    · simp
    · split
      · split <;> simp [Event.isParse]
      · split
        · split <;> simp [Event.isParse]
        · split
          · simp [Event.isParse]
          · split
            · simp [Event.isParse]
            · simp [Event.isParse, countP_isParse_reportMatches]
  refine ⟨?_, ?_, ?_, hcount⟩
  · intro hnil
    simp only [processPackage, h, hr, hnil]
    rfl
  · intro filename hhead
    obtain ⟨rest, hfiles⟩ : ∃ rest,
        pkg.GoFiles ++ pkg.TestGoFiles ++ pkg.XTestGoFiles ++ pkg.CgoFiles
          = filename :: rest := by
      cases hl : pkg.GoFiles ++ pkg.TestGoFiles ++ pkg.XTestGoFiles ++ pkg.CgoFiles with
      | nil => rw [hl] at hhead; simp at hhead
      | cons a rest =>
        rw [hl] at hhead
        simp only [List.head?_cons, Option.some.injEq] at hhead
        exact ⟨rest, by rw [hhead]⟩
    have htrace : ∃ tail, processPackage w importPath none =
        Event.resolve importPath :: Event.parse (w.Join pkg.Dir filename) :: tail ∧
        tail.countP Event.isParse = 0 := by
      cases hp : w.ParseFile (w.Join pkg.Dir filename) with
      | ok astFile =>
        refine ⟨reportMatches w (walkFile w.isUpper { structTypes := [] } astFile).structTypes,
          ?_, countP_isParse_reportMatches w _⟩
        simp only [processPackage, h, hr, hfiles, hp]
        rfl
      | fail t msg =>
        refine ⟨[Event.stdout (msg ++ "\n"), Event.stdout "aborting package\n"], ?_, ?_⟩
        · simp only [processPackage, h, hr, hfiles, hp]
          rfl
        · simp [Event.isParse]
    obtain ⟨tail, ht, hz⟩ := htrace
    rw [ht]
    refine ⟨?_, by simp⟩
    have hfil : tail.filter Event.isParse = [] := by
      rw [List.filter_eq_nil_iff]
      exact List.countP_eq_zero.1 hz
    simp [List.filter_cons, Event.isParse, hfil]
  · cases pkg.GoFiles <;> cases pkg.TestGoFiles <;> cases pkg.XTestGoFiles <;>
      cases pkg.CgoFiles <;> simp [Option.or]

/-- Witness of C7: the package `a` has ordinary files and `x.go` is parsed; the
package `a/e` has no file and nothing is parsed. -/
theorem processPackage_file_selection_witness :
    (processPackage worldEx "a" none).filter Event.isParse = [Event.parse "/src/a/x.go"]
    ∧ processPackage worldEx "a/e" none = [Event.resolve "a/e"] :=
  ⟨((processPackage_file_selection worldEx "a" pkgA (by decide) rfl).2.1
      "x.go" (by decide)).1,
   (processPackage_file_selection worldEx "a/e" pkgEmpty (by decide) rfl).1
      (by decide)⟩

/-- C8: when the selected file fails to parse, `processPackage` writes the
parse error and then the line `aborting package`, reports no match (whatever
partial tree the parse returned), and returns, so that the run goes on with
the next package. -/
theorem processPackage_parse_failure (w : World) (importPath : String) (pkg : Package)
    (filename : String) (rest : List String) (tree : Option File) (msg : String)
    (h : w.MatchString importPath = true) (hr : w.resolve importPath = .ok pkg)
    (hf : pkg.GoFiles ++ pkg.TestGoFiles ++ pkg.XTestGoFiles ++ pkg.CgoFiles
      = filename :: rest)
    (hp : w.ParseFile (w.Join pkg.Dir filename) = .fail tree msg) :
    processPackage w importPath none =
        [Event.resolve importPath, Event.parse (w.Join pkg.Dir filename),
          Event.stdout (msg ++ "\n"), Event.stdout "aborting package\n"]
    ∧ (∀ more : List (String × Option BuildError),
        forEachPackage w ((importPath, none) :: more) =
          [Event.resolve importPath, Event.parse (w.Join pkg.Dir filename),
            Event.stdout (msg ++ "\n"), Event.stdout "aborting package\n"]
          ++ forEachPackage w more) := by
  have htrace : processPackage w importPath none =
      [Event.resolve importPath, Event.parse (w.Join pkg.Dir filename),
        Event.stdout (msg ++ "\n"), Event.stdout "aborting package\n"] := by
    simp only [processPackage, h, hr, hf, hp]
    rfl
  refine ⟨htrace, ?_⟩
  intro more
  rw [forEachPackage_cons, htrace]

/-- Witness of C8: the file of the package `a/t` does not parse; the partial
tree holds the qualifying struct type of `A`, and no match is reported. -/
theorem processPackage_parse_failure_witness :
    worldEx.ParseFile "/src/a/t/t_test.go"
        = .fail (some fileAB) "/src/a/t/t_test.go:3:1: expected declaration"
    ∧ searchStructs Char.isUpper fileAB = [structA]
    ∧ processPackage worldEx "a/t" none =
        [Event.resolve "a/t", Event.parse "/src/a/t/t_test.go",
          Event.stdout "/src/a/t/t_test.go:3:1: expected declaration\n",
          Event.stdout "aborting package\n"] :=
  ⟨rfl, rfl,
   (processPackage_parse_failure worldEx "a/t" pkgTest "t_test.go" ["e_test.go"]
      (some fileAB) "/src/a/t/t_test.go:3:1: expected declaration"
      (by decide) rfl rfl rfl).1⟩

/-- C9: when the selected file parses, `processPackage` writes one block per
entry of the matcher's result, in the order of that result: the position of
the node, then the text of the printer for the node or, when the printer fails,
its error message, then a line terminator.  The blocks after a failing one are
written all the same. -/
theorem processPackage_report (w : World) (importPath : String) (pkg : Package)
    (filename : String) (rest : List String) (astFile : File)
    (h : w.MatchString importPath = true) (hr : w.resolve importPath = .ok pkg)
    (hf : pkg.GoFiles ++ pkg.TestGoFiles ++ pkg.XTestGoFiles ++ pkg.CgoFiles
      = filename :: rest)
    (hp : w.ParseFile (w.Join pkg.Dir filename) = .ok astFile) :
    processPackage w importPath none =
        [Event.resolve importPath, Event.parse (w.Join pkg.Dir filename)] ++
          (searchStructs w.isUpper astFile).flatMap (fun m =>
            [Event.stdout ("\n" ++ w.PositionFor m.Struct ++ ":\n"),
              Event.stdout (match w.Fprint m with
                | .ok text => text
                | .error err => err ++ "\n"),
              Event.stdout "\n"])
    ∧ (processPackage w importPath none).length =
        2 + 3 * (searchStructs w.isUpper astFile).length := by
  have htrace : processPackage w importPath none =
      [Event.resolve importPath, Event.parse (w.Join pkg.Dir filename)] ++
        reportMatches w (searchStructs w.isUpper astFile) := by
    simp only [processPackage, h, hr, hf, hp]
    rfl
  refine ⟨by rw [htrace, reportMatches_eq], ?_⟩
  rw [htrace, reportMatches_eq, List.length_append, List.length_flatMap]
  generalize searchStructs w.isUpper astFile = l
  induction l with
  | nil => rfl
  | cons m tl ih =>
    simp only [List.length_cons, List.length_nil, List.map_cons, List.sum_cons,
      Function.comp_apply] at ih ⊢
    omega

/-- Witness of C9: the file of the package `a` has three matches; the printer
fails on the second, and the third block is written all the same. -/
theorem processPackage_report_witness :
    searchStructs worldEx.isUpper fileDeep = [structOuter, structInner, structBody]
    ∧ processPackage worldEx "a" none =
        [Event.resolve "a", Event.parse "/src/a/x.go",
          Event.stdout "\nx.go:19:\n", Event.stdout "struct", Event.stdout "\n",
          Event.stdout "\nx.go:40:\n", Event.stdout "unsupported node\n", Event.stdout "\n",
          Event.stdout "\nx.go:80:\n", Event.stdout "struct", Event.stdout "\n"] :=
  ⟨rfl,
   (processPackage_report worldEx "a" pkgA "x.go" ["y.go", "x_test.go", "c.go"] fileDeep
      (by decide) rfl rfl rfl).1⟩

end FindUnexp
